import Mathlib

set_option maxRecDepth 4000

/-!
Shallow embedding of the `musicctl` media-player controller (Rust).
Definitions are translated from `src/main.rs`, `src/plugin.rs`,
`src/plugin/mpris.rs`, `src/plugin/radiotray.rs`, `src/plugin/shairportsync.rs`.
Remote bus interactions are modelled by per-handle oracles recording the
outcome of each remote call.
-/

/-- Error taxonomy of the controller (the `McError` enum in the source):
transport failures coming from the bus library, JSON decode failures, and the
no-active-player error. -/
inductive McError where
  | zbus (msg : String)
  | json (msg : String)
  | noActive

deriving instance DecidableEq for McError

/-- Outcome of running a fragment of the Rust code: a process panic
(`crash`, e.g. `todo!()` or an out-of-bounds index), an `Err` value, or an
`Ok` value. -/
inductive COut (α : Type) where
  | crash (msg : String)
  | err (e : McError)
  | ok (a : α)

def COut.bind {α β : Type} : COut α → (α → COut β) → COut β
  | .crash m, _ => .crash m
  | .err e, _ => .err e
  | .ok a, f => f a

def COut.isCrash {α : Type} : COut α → Bool
  | .crash _ => true
  | _ => false

/-- Loosely typed bus variant values (`zbus::zvariant::Value`): the shapes the
normalizer distinguishes are plain strings and arrays; `int`/`boolean` stand
for the remaining scalar shapes that fall into the wildcard arm. -/
inductive VValue where
  | str (s : String)
  | array (xs : List VValue)
  | int (n : Int)
  | boolean (b : Bool)

/-- Metadata dictionary (`HashMap<String, Value>`), keys assumed unique. -/
abbrev Metadata := List (String × VValue)

/-- Translation of `variant_val_to_string` from `src/plugin.rs`:
`Str(s) => s.to_string()`, `Array(a) => variant_val_to_string(&a[0])`
(where `a[0]` panics when the array is empty), `_ => todo!()` (panics). -/
def variant_val_to_string : VValue → COut String
  | .str s => .ok s
  | .array a =>
    match a with
    | [] => .crash "index out of bounds"
    | v :: _ => variant_val_to_string v
  | .int _ => .crash "not yet implemented"
  | .boolean _ => .crash "not yet implemented"

/-- Translation of `variant_val_to_str` from `src/main.rs` (textually the same
body as `variant_val_to_string` in `src/plugin.rs`). -/
def variant_val_to_str : VValue → COut String
  | .str s => .ok s
  | .array a =>
    match a with
    | [] => .crash "index out of bounds"
    | v :: _ => variant_val_to_str v
  | .int _ => .crash "not yet implemented"
  | .boolean _ => .crash "not yet implemented"

/-- Track-information record (`MusicInfo` in the source): artist, title,
album and cover-art reference, each a string. -/
structure MusicInfo where
  artist : String
  title : String
  album : String
  cover : String

/-- Translation of `impl Display for MusicInfo` (`fmt` in `src/plugin.rs`,
identical in `src/main.rs`): write `'<album>' ` when the album is non-empty,
then `<title> by ` when the title is non-empty, then the artist. -/
def MusicInfo.display (m : MusicInfo) : String :=
  (if m.album ≠ "" then "'" ++ m.album ++ "' " else "")
    ++ (if m.title ≠ "" then m.title ++ " by " else "")
    ++ m.artist

/-- Parsed JSON values (`serde_json::Value`) as returned by parsing the
radio-stream player's state blob. -/
inductive JValue where
  | null
  | jbool (b : Bool)
  | jnum (n : Int)
  | jstr (s : String)
  | jarr (xs : List JValue)
  | jobj (fields : List (String × JValue))

/-- Translation of `serde_json::Value::is_null`. -/
def JValue.isNull : JValue → Bool
  | .null => true
  | _ => false

/-- Translation of `serde_json::Value::get` with a string key: a lookup that
succeeds only on objects. Keys of a parsed object are unique. -/
def JValue.jget : JValue → String → Option JValue
  | .jobj fields, key => (fields.find? (fun p => p.1 == key)).map (fun p => p.2)
  | _, _ => none

/-- Translation of `serde_json::Value::as_str`. -/
def JValue.asStr : JValue → Option String
  | .jstr s => some s
  | _ => none

/-- Translation of `get_json_string` from `src/plugin.rs`:
`xs.get(key).and_then(|x| x.as_str()).map(|x| x.to_string()).unwrap_or_default()`. -/
def get_json_string (xs : JValue) (key : String) : String :=
  ((xs.jget key).bind JValue.asStr).getD ""


/-- Bus-name prefix of generic MPRIS transport players
(`mpris::MPRIS_PREFIX` in `src/plugin/mpris.rs`). -/
def MPRIS_PREFIX_STR : String := "org.mpris.MediaPlayer2."

/-- Reserved bus identity of the audio-relay (ShairportSync) player
(`shairportsync::SERVICE_NAME`). -/
def SHAIRPORT_SERVICE_NAME : String := "org.mpris.MediaPlayer2.ShairportSync"

/-- Reserved bus identity of the radio-stream player
(`radiotray::RADIOTRAY_NG`). -/
def RADIOTRAY_NG : String := "com.github.radiotray_ng"

/-- Executable model of Rust's `str::starts_with`: the pattern's character
sequence is a prefix of the subject's. -/
def strStartsWith (s p : String) : Bool := p.data.isPrefixOf s.data

/-- One constructed backend adapter, tagged with its protocol variant and
(for bus-destination based adapters) the destination it targets. -/
inductive Adapter where
  | mpris (dest : String)
  | shairport (dest : String)
  | radiotray

deriving instance DecidableEq for Adapter
deriving instance DecidableEq for Except

/-- Abstraction of the bus during discovery: the enumerated name listing
(`list_names`), and the outcome of constructing a proxy to a given
destination (`builder(..).destination(x)?.build().await`), plus the outcome
of constructing the radio-stream proxy (its service and path are fixed). -/
structure BusEnv where
  names : List String
  build : String → Except McError Unit
  rtBuild : Except McError Unit

/-- Translation of the per-name construction arm inside `get_all`
(`src/plugin.rs`): an exact match on the ShairportSync reserved identity
builds the audio-relay proxy, every other (prefix-matching) name builds a
generic MPRIS proxy. -/
def buildOne (env : BusEnv) (x : String) : Except McError Adapter :=
  if x = SHAIRPORT_SERVICE_NAME then
    (env.build x).map (fun _ => Adapter.shairport x)
  else
    (env.build x).map (fun _ => Adapter.mpris x)

/-- Translation of `try_join_all` over the adapter constructions in
`get_all`: constructions complete in traversal order and the first failure
aborts the whole join. -/
def buildAdapters (env : BusEnv) : List String → Except McError (List Adapter)
  | [] => .ok []
  | x :: rest =>
    match buildOne env x with
    | .error e => .error e
    | .ok a =>
      match buildAdapters env rest with
      | .error e => .error e
      | .ok l => .ok (a :: l)

/-- Translation of `get_all` from `src/plugin.rs` (given a successful name
enumeration): filter the names to the MPRIS prefix, construct one adapter per
match fail-fast, then append a single radio-stream adapter when the
radio-stream reserved identity is among the enumerated names. -/
def get_all (env : BusEnv) : Except McError (List Adapter) :=
  match buildAdapters env (env.names.filter (fun x => strStartsWith x MPRIS_PREFIX_STR)) with
  | .error e => .error e
  | .ok list =>
    if env.names.contains RADIOTRAY_NG then
      match env.rtBuild with
      | .error e => .error e
      | .ok _ => .ok (list ++ [Adapter.radiotray])
    else .ok list

/-- One generic MPRIS backend handle (`Mpris2Proxy`): its bus destination and
the outcome of fetching its `Metadata` property. -/
structure MprisHandle where
  destination : String
  metadataRes : Except McError Metadata

/-- Translation of `mc_name` for the MPRIS backend (`src/main.rs` line 116,
`src/plugin/mpris.rs` line 35): strip the MPRIS prefix from the destination
and append the protocol tag. The call is infallible in the source. -/
def mc_name (h : MprisHandle) : String :=
  (h.destination.drop MPRIS_PREFIX_STR.length) ++ " (MPRIS)"

/-- Field extraction used by the MPRIS `mc_info` in `src/main.rs`:
`xs.get(k).map(variant_val_to_str).unwrap_or_default()` — an absent key
yields the empty string, a present key runs the normalizer (which may
panic). -/
def md_field_main (xs : Metadata) (k : String) : COut String :=
  match (xs.find? (fun p => p.1 == k)).map (fun p => p.2) with
  | some v => variant_val_to_str v
  | none => .ok ""

/-- Same extraction as used in `src/plugin.rs` and `src/plugin/mpris.rs`,
which call `variant_val_to_string`. -/
def md_field_plugin (xs : Metadata) (k : String) : COut String :=
  match (xs.find? (fun p => p.1 == k)).map (fun p => p.2) with
  | some v => variant_val_to_string v
  | none => .ok ""

/-- Translation of `mc_info` for the MPRIS backend as written in
`src/main.rs` (lines 120-132): propagate a metadata transport failure, map an
empty dictionary to `None`, otherwise build the record field by field. -/
def main_mc_info (h : MprisHandle) : COut (Option MusicInfo) :=
  match h.metadataRes with
  | .error e => .err e
  | .ok xs =>
    if xs.isEmpty then .ok none
    else
      (md_field_main xs "xesam:artist").bind fun artist =>
      (md_field_main xs "xesam:title").bind fun title =>
      (md_field_main xs "xesam:album").bind fun album =>
      (md_field_main xs "mpris:artUrl").bind fun cover =>
      .ok (some ⟨artist, title, album, cover⟩)

/-- Translation of `mc_info` for the MPRIS backend as written in
`src/plugin/mpris.rs` (lines 39-63); the body is the same as in
`src/main.rs` except that it calls `variant_val_to_string`. -/
def mpris_mc_info (h : MprisHandle) : COut (Option MusicInfo) :=
  match h.metadataRes with
  | .error e => .err e
  | .ok xs =>
    if xs.isEmpty then .ok none
    else
      (md_field_plugin xs "xesam:artist").bind fun artist =>
      (md_field_plugin xs "xesam:title").bind fun title =>
      (md_field_plugin xs "xesam:album").bind fun album =>
      (md_field_plugin xs "mpris:artUrl").bind fun cover =>
      .ok (some ⟨artist, title, album, cover⟩)

/-- Translation of `mc_canplay` for the MPRIS backend:
`Ok(self.metadata().await?.get("xesam:artist").is_some())`. -/
def mc_canplay (h : MprisHandle) : COut Bool :=
  match h.metadataRes with
  | .error e => .err e
  | .ok xs => .ok ((xs.find? (fun p => p.1 == "xesam:artist")).isSome)

/-- Translation of `MusicInfo::try_from` in `src/plugin.rs` (lines 56-79):
builds the record field by field with `variant_val_to_string`; its only
failure mode is a normalizer panic. -/
def musicInfoTryFrom (xs : Metadata) : COut MusicInfo :=
  (md_field_plugin xs "xesam:artist").bind fun artist =>
  (md_field_plugin xs "xesam:title").bind fun title =>
  (md_field_plugin xs "xesam:album").bind fun album =>
  (md_field_plugin xs "mpris:artUrl").bind fun cover =>
  .ok ⟨artist, title, album, cover⟩

/-- One audio-relay (ShairportSync) backend handle: destination plus the
outcomes of its `Metadata` and `Available` property fetches. -/
structure SPHandle where
  destination : String
  metadataRes : Except McError Metadata
  availableRes : Except McError Bool

/-- Translation of `mc_info` for the ShairportSync backend
(`src/plugin/shairportsync.rs` lines 42-49): empty dictionary maps to
`None`, otherwise `Ok(Some(xs.try_into()?))`. -/
def sp_mc_info (h : SPHandle) : COut (Option MusicInfo) :=
  match h.metadataRes with
  | .error e => .err e
  | .ok xs =>
    if xs.isEmpty then .ok none
    else (musicInfoTryFrom xs).bind fun i => .ok (some i)

/-- One radio-stream (RadioTrayNG) backend handle: the combined outcome of
fetching the state blob (`get_player_state`) and parsing it with
`serde_json::from_str` — a transport error or a JSON decode error both
surface through the same `?` chain. -/
structure RTHandle where
  playerStateParse : Except McError JValue

/-- Translation of `mc_info` for the RadioTrayNG backend
(`src/plugin/radiotray.rs` lines 44-57): a null blob maps to `None`,
otherwise the record is read with `get_json_string` (cover fixed to ""). -/
def rt_mc_info (h : RTHandle) : COut (Option MusicInfo) :=
  match h.playerStateParse with
  | .error e => .err e
  | .ok xs =>
    if xs.isNull then .ok none
    else
      .ok (some ⟨get_json_string xs "artist", get_json_string xs "title",
        get_json_string xs "station", ""⟩)

/-- Pure part of the RadioTrayNG `mc_canplay` (`src/plugin/radiotray.rs`
lines 66-74), applied to the successfully parsed state blob:
`.get("url").and_then(|x| x.as_str()).map(|x| !x.is_empty()).unwrap_or_default()`. -/
def rt_canplay_blob (xs : JValue) : Bool :=
  (((xs.jget "url").bind JValue.asStr).map (fun s => !(s.isEmpty))).getD false

/-- Translation of `mc_canplay` for the RadioTrayNG backend: propagate a
fetch/parse failure, otherwise evaluate the pure predicate on the blob. -/
def rt_mc_canplay (h : RTHandle) : COut Bool :=
  match h.playerStateParse with
  | .error e => .err e
  | .ok xs => .ok (rt_canplay_blob xs)

/-- Translation of `x.mc_info().await.unwrap_or_default()` in the selection
code of `run` (`src/main.rs` lines 191-205): an `Err` is swallowed into
`None` (the default), a panic still propagates. -/
def infoDefault (h : MprisHandle) : COut (Option MusicInfo) :=
  match main_mc_info h with
  | .crash m => .crash m
  | .err _ => .ok none
  | .ok v => .ok v

/-- Per-handle entry computed by the concurrent fan-out in `run`
(`src/main.rs` lines 191-204): with a `--instance` criterion the handle's
info is queried only when `mc_name` matches exactly, otherwise the entry is
`None`; without a criterion every handle's info is queried. -/
def entryInfo (instOpt : Option String) (h : MprisHandle) : COut (Option MusicInfo) :=
  match instOpt with
  | some name => if mc_name h = name then infoDefault h else .ok none
  | none => infoDefault h

/-- Translation of the `join_all` in `run`: all per-handle entries are
collected in traversal order, paired with their handle. -/
def gather (instOpt : Option String) : List MprisHandle →
    COut (List (MprisHandle × Option MusicInfo))
  | [] => .ok []
  | h :: rest =>
    (entryInfo instOpt h).bind fun i =>
    (gather instOpt rest).bind fun l =>
    .ok ((h, i) :: l)

/-- Translation of the `.filter_map(|(x, info)| info.map(|i| (x, i)))` in
`run` (`src/main.rs` line 205): drop the handles that produced no track. -/
def selectList (instOpt : Option String) (hs : List MprisHandle) :
    COut (List (MprisHandle × MusicInfo)) :=
  (gather instOpt hs).bind fun l =>
    .ok (l.filterMap (fun p => p.2.map (fun i => (p.1, i))))

/-- Translation of the selection step of `run` (`src/main.rs` lines 207-209
and the `list[0]` uses below them): an empty list is the `NoActive` error,
otherwise the first surviving entry is the selected player. -/
def runSelect (instOpt : Option String) (hs : List MprisHandle) :
    COut (MprisHandle × MusicInfo) :=
  (selectList instOpt hs).bind fun l =>
    match l with
    | [] => .err McError.noActive
    | x :: _ => .ok x

/-- Claim-side notion for C7: the value is a (possibly nested) list wrapping
whose leftmost leaf is the scalar string `s`. -/
inductive WrapsScalar : VValue → String → Prop where
  | scalar (s : String) : WrapsScalar (.str s) s
  | head (v : VValue) (rest : List VValue) (s : String) :
      WrapsScalar v s → WrapsScalar (.array (v :: rest)) s

/-- Claim-side notion for C10: recursive first-element unwrapping of the
value encounters an empty list. -/
inductive EncEmpty : VValue → Prop where
  | base : EncEmpty (.array [])
  | head (v : VValue) (rest : List VValue) : EncEmpty v → EncEmpty (.array (v :: rest))

theorem str_empty_append (s : String) : "" ++ s = s := by
  cases s
  rfl

/-- C7: for every metadata value that is a (possibly nested) list wrapping a
scalar string, the normalizer recursively takes the first element until a
scalar is reached and returns that scalar content. -/
theorem normalizer_unwraps_nested_scalar (v : VValue) (s : String)
    (h : WrapsScalar v s) : variant_val_to_string v = .ok s := by
  induction h with
  | scalar s => rfl
  | head v rest s hw ih => exact Eq.trans rfl ih

theorem normalizer_unwraps_nested_scalar_witness :
    variant_val_to_string (.array [.array [.str "x"], .str "y"]) = .ok "x" :=
  normalizer_unwraps_nested_scalar _ _
    (.head _ _ _ (.head _ _ _ (.scalar "x")))

/-- C10: whenever the recursive first-element unwrapping of a metadata value
encounters an empty list, both copies of the normalizer panic on the
unconditional index of element 0 instead of returning a value or a decode
failure. -/
theorem normalizer_empty_list_crash (v : VValue) (h : EncEmpty v) :
    variant_val_to_string v = .crash "index out of bounds" ∧
    variant_val_to_str v = .crash "index out of bounds" := by
  induction h with
  | base => exact ⟨rfl, rfl⟩
  | head v rest hv ih => exact ⟨Eq.trans rfl ih.1, Eq.trans rfl ih.2⟩

theorem normalizer_empty_list_crash_witness :
    variant_val_to_string (.array []) = .crash "index out of bounds" ∧
    variant_val_to_str (.array []) = .crash "index out of bounds" :=
  normalizer_empty_list_crash _ EncEmpty.base

/-- C6: on a metadata value that is neither a plain scalar string nor a list
(an integer here, a boolean likewise), both copies of the normalizer run the
wildcard arm, which is `todo!()`: the process panics instead of producing a
defined decode failure. -/
theorem normalizer_other_shape_crashes :
    variant_val_to_string (.int 5) = .crash "not yet implemented" ∧
    variant_val_to_str (.int 5) = .crash "not yet implemented" ∧
    variant_val_to_string (.boolean true) = .crash "not yet implemented" :=
  ⟨rfl, rfl, rfl⟩

/-- C5: for each backend, an empty metadata dictionary (MPRIS, ShairportSync)
or a null state blob (RadioTrayNG) makes `info()` return `Ok(None)` — no
track — rather than an error or a record of empty strings. -/
theorem info_empty_payload_none :
    (∀ h : MprisHandle, h.metadataRes = .ok [] → mpris_mc_info h = .ok none) ∧
    (∀ h : SPHandle, h.metadataRes = .ok [] → sp_mc_info h = .ok none) ∧
    (∀ h : RTHandle, h.playerStateParse = .ok .null → rt_mc_info h = .ok none) := by
  refine ⟨fun h hm => ?_, fun h hm => ?_, fun h hm => ?_⟩ <;>
    simp [mpris_mc_info, sp_mc_info, rt_mc_info, hm, JValue.isNull]

theorem info_empty_payload_none_witness :
    mpris_mc_info ⟨"org.mpris.MediaPlayer2.X", .ok []⟩ = .ok none ∧
    sp_mc_info ⟨SHAIRPORT_SERVICE_NAME, .ok [], .ok true⟩ = .ok none ∧
    rt_mc_info ⟨.ok .null⟩ = .ok none :=
  ⟨info_empty_payload_none.1 _ rfl, info_empty_payload_none.2.1 _ rfl,
    info_empty_payload_none.2.2 _ rfl⟩

/-- C8: display rendering of a track record emits the quoted album with a
trailing space exactly when the album is non-empty, then `<title> by `
exactly when the title is non-empty, then the artist; with empty album and
title the rendering is exactly the artist string, and with all fields
non-empty it is `'<album>' <title> by <artist>`. -/
theorem display_rendering_cases (m : MusicInfo) :
    (m.album = "" → m.title = "" → m.display = m.artist) ∧
    (m.album ≠ "" → m.title ≠ "" →
      m.display = ("'" ++ m.album ++ "' ") ++ (m.title ++ " by ") ++ m.artist) ∧
    (m.album = "" → m.title ≠ "" → m.display = (m.title ++ " by ") ++ m.artist) ∧
    (m.album ≠ "" → m.title = "" → m.display = ("'" ++ m.album ++ "' ") ++ m.artist) := by
  refine ⟨fun h1 h2 => ?_, fun h1 h2 => ?_, fun h1 h2 => ?_, fun h1 h2 => ?_⟩ <;>
    simp [MusicInfo.display, h1, h2, str_empty_append]

theorem display_rendering_cases_witness :
    MusicInfo.display ⟨"Artist", "Title", "Album", "c"⟩ = "'Album' Title by Artist" ∧
    MusicInfo.display ⟨"Artist", "", "", "c"⟩ = "Artist" := by
  constructor
  · have h := (display_rendering_cases ⟨"Artist", "Title", "Album", "c"⟩).2.1
      (by decide) (by decide)
    rw [h]
    rfl
  · exact (display_rendering_cases ⟨"Artist", "", "", "c"⟩).1 rfl rfl

theorem buildAdapters_error (env : BusEnv) (pre : List String) (x : String)
    (rest : List String) (e : McError)
    (hpre : ∀ y ∈ pre, env.build y = .ok ())
    (hx : env.build x = .error e) :
    buildAdapters env (pre ++ x :: rest) = .error e := by
  induction pre with
  | nil =>
      have hb : buildOne env x = .error e := by
        unfold buildOne
        split <;> rw [hx] <;> rfl
      simp [buildAdapters, hb]
  | cons y pre ih =>
      have hy : env.build y = .ok () := hpre y (List.mem_cons_self y pre)
      have hb : ∃ a, buildOne env y = .ok a := by
        unfold buildOne
        split
        · exact ⟨_, by rw [hy]; rfl⟩
        · exact ⟨_, by rw [hy]; rfl⟩
      obtain ⟨a, hba⟩ := hb
      have ih2 := ih (fun z hz => hpre z (List.mem_cons_of_mem y hz))
      simp [buildAdapters, hba, ih2]

/-- C2: discovery is atomically fail-fast. If the filtered name listing is
`pre ++ x :: rest` with every construction before `x` succeeding and the
construction for `x` failing with `e`, then the whole `get_all` call returns
`e` and no backend list at all — the successful generic, audio-relay and
radio-stream adapters are all discarded. -/
theorem discovery_failfast_atomic (env : BusEnv) (pre : List String) (x : String)
    (rest : List String) (e : McError)
    (hsplit : env.names.filter (fun s => strStartsWith s MPRIS_PREFIX_STR) = pre ++ x :: rest)
    (hpre : ∀ y ∈ pre, env.build y = .ok ())
    (hx : env.build x = .error e) :
    get_all env = .error e := by
  have hba := buildAdapters_error env pre x rest e hpre hx
  unfold get_all
  rw [hsplit, hba]

/-- Concrete discovery environment in which constructing the proxy for the
`Foo` player fails while every other construction would succeed. -/
def envFooFails : BusEnv :=
  ⟨["org.mpris.MediaPlayer2.Foo", "org.mpris.MediaPlayer2.ShairportSync",
      "com.github.radiotray_ng"],
    fun s => if s = "org.mpris.MediaPlayer2.Foo" then .error (.zbus "connect failed")
      else .ok (),
    .ok ()⟩

theorem discovery_failfast_atomic_witness :
    get_all envFooFails = .error (.zbus "connect failed") :=
  discovery_failfast_atomic envFooFails [] "org.mpris.MediaPlayer2.Foo"
    ["org.mpris.MediaPlayer2.ShairportSync"] (.zbus "connect failed")
    (by decide) (fun y hy => absurd hy (List.not_mem_nil y)) (by decide)

/-- Shape of a successful per-name construction: the reserved ShairportSync
identity yields the audio-relay adapter, any other prefix match yields a
generic MPRIS adapter. -/
def mkAdapter (x : String) : Adapter :=
  if x = SHAIRPORT_SERVICE_NAME then .shairport x else .mpris x

theorem buildAdapters_ok (env : BusEnv) (l : List String)
    (h : ∀ y ∈ l, env.build y = .ok ()) :
    buildAdapters env l = .ok (l.map mkAdapter) := by
  induction l with
  | nil => rfl
  | cons y t ih =>
      have hy : env.build y = .ok () := h y (List.mem_cons_self y t)
      have hb : buildOne env y = .ok (mkAdapter y) := by
        by_cases hsp : y = SHAIRPORT_SERVICE_NAME
        · subst hsp
          simp [buildOne, mkAdapter, hy, Except.map]
        · simp [buildOne, mkAdapter, hsp, hy, Except.map]
      have ih2 := ih (fun z hz => h z (List.mem_cons_of_mem y hz))
      simp [buildAdapters, hb, ih2]

/-- C3: when every construction succeeds, discovery returns exactly one
adapter per prefix-matching name in order — the reserved ShairportSync
identity yielding the audio-relay adapter instead of a generic one — with a
single radio-stream adapter appended afterwards exactly when the radio-stream
reserved identity is among the enumerated names. -/
theorem discovery_adapter_shape (env : BusEnv)
    (hb : ∀ y ∈ env.names.filter (fun s => strStartsWith s MPRIS_PREFIX_STR),
      env.build y = .ok ())
    (hrt : env.rtBuild = .ok ()) :
    get_all env = .ok
      ((env.names.filter (fun s => strStartsWith s MPRIS_PREFIX_STR)).map mkAdapter
        ++ if env.names.contains RADIOTRAY_NG then [Adapter.radiotray] else []) := by
  have h1 := buildAdapters_ok env _ hb
  unfold get_all
  rw [h1]
  by_cases hc : RADIOTRAY_NG ∈ env.names
  · simp [hc, hrt]
  · simp [hc]

/-- Concrete discovery environment with the spec's example name listing and
all constructions succeeding. -/
def envAllOk : BusEnv :=
  ⟨["org.mpris.MediaPlayer2.Foo", "org.mpris.MediaPlayer2.ShairportSync",
      "com.github.radiotray_ng"],
    fun _ => .ok (), .ok ()⟩

theorem discovery_adapter_shape_witness :
    get_all envAllOk = .ok [Adapter.mpris "org.mpris.MediaPlayer2.Foo",
      Adapter.shairport "org.mpris.MediaPlayer2.ShairportSync", Adapter.radiotray] := by
  have h := discovery_adapter_shape envAllOk (fun y _ => rfl) rfl
  rw [h]
  decide

/-- Track yielded by a handle once an `Err` from `info()` has been swallowed
into the default (`None`), as the selection fan-out in `run` does. -/
def infoOrNone (h : MprisHandle) : Option MusicInfo :=
  match main_mc_info h with
  | .ok v => v
  | _ => none

/-- Per-handle survivor entry of the selection fan-out, as a plain option:
with a criterion the handle must match `mc_name` exactly and yield a track,
without one it must just yield a track. -/
def entryOpt (instOpt : Option String) (h : MprisHandle) : Option MusicInfo :=
  match instOpt with
  | some name => if mc_name h = name then infoOrNone h else none
  | none => infoOrNone h

theorem entryInfo_eq_ok (instOpt : Option String) (h : MprisHandle)
    (hnc : (main_mc_info h).isCrash = false) :
    entryInfo instOpt h = .ok (entryOpt instOpt h) := by
  have hd : infoDefault h = .ok (infoOrNone h) := by
    cases hm : main_mc_info h with
    | crash m => rw [hm] at hnc; simp [COut.isCrash] at hnc
    | err e => simp [infoDefault, infoOrNone, hm]
    | ok v => simp [infoDefault, infoOrNone, hm]
  cases instOpt with
  | none => simpa [entryInfo, entryOpt] using hd
  | some name =>
      by_cases hcnd : mc_name h = name <;> simp [entryInfo, entryOpt, hcnd, hd]

theorem gather_ok (instOpt : Option String) (hs : List MprisHandle)
    (hnc : ∀ h ∈ hs, (main_mc_info h).isCrash = false) :
    gather instOpt hs = .ok (hs.map (fun h => (h, entryOpt instOpt h))) := by
  induction hs with
  | nil => rfl
  | cons h t ih =>
      have h1 := entryInfo_eq_ok instOpt h (hnc h (List.mem_cons_self h t))
      have h2 := ih (fun z hz => hnc z (List.mem_cons_of_mem h hz))
      simp [gather, h1, h2, COut.bind]

theorem selectList_ok (instOpt : Option String) (hs : List MprisHandle)
    (hnc : ∀ h ∈ hs, (main_mc_info h).isCrash = false) :
    selectList instOpt hs =
      .ok (hs.filterMap (fun h => (entryOpt instOpt h).map (fun i => (h, i)))) := by
  have hg := gather_ok instOpt hs hnc
  simp only [selectList, hg, COut.bind, List.filterMap_map]
  rfl

theorem head_filterMap_eq_findSome {α β : Type} (f : α → Option β) (l : List α) :
    (l.filterMap f).head? = l.findSome? f := by
  induction l with
  | nil => rfl
  | cons a t ih => cases hf : f a <;> simp [List.filterMap_cons, List.findSome?_cons, hf, ih]

/-- C1 (amended): provided no per-handle `info()` call panics, the selection
in `run` walks the backend list in discovery order, swallows failed `info()`
calls as "no track", restricts to handles whose `mc_name()` equals the
criterion when one is supplied, and selects the first handle that yielded a
track — failing with `NoActive` when no handle qualifies. -/
theorem selector_first_with_info (instOpt : Option String) (hs : List MprisHandle)
    (hnc : ∀ h ∈ hs, (main_mc_info h).isCrash = false) :
    runSelect instOpt hs =
      match hs.findSome? (fun h => (entryOpt instOpt h).map (fun i => (h, i))) with
      | some p => .ok p
      | none => .err McError.noActive := by
  have hsl := selectList_ok instOpt hs hnc
  have hh := head_filterMap_eq_findSome
    (fun h => (entryOpt instOpt h).map (fun i => (h, i))) hs
  unfold runSelect
  rw [hsl]
  cases hL : hs.filterMap (fun h => (entryOpt instOpt h).map (fun i => (h, i))) with
  | nil => rw [hL] at hh; rw [← hh]; rfl
  | cons x t => rw [hL] at hh; rw [← hh]; rfl

/-- Handle A of the C1 scenario: its metadata has a title but no artist key,
so `can_play_now()` is false while `info()` yields a track. -/
def hA : MprisHandle := ⟨"org.mpris.MediaPlayer2.A", .ok [("xesam:title", .str "Track")]⟩

/-- Handle B of the C1 scenario: metadata with an artist key, so
`can_play_now()` is true and `info()` yields a track. -/
def hB : MprisHandle := ⟨"org.mpris.MediaPlayer2.B", .ok [("xesam:artist", .str "BB")]⟩

/-- Handle C of the C1 scenario, like B. -/
def hC : MprisHandle := ⟨"org.mpris.MediaPlayer2.C", .ok [("xesam:artist", .str "CC")]⟩

/-- Variant of handle A whose metadata dictionary is empty, so `info()`
yields no track. -/
def hA0 : MprisHandle := ⟨"org.mpris.MediaPlayer2.A", .ok []⟩

/-- Handle whose metadata property fetch fails with a transport error. -/
def hE : MprisHandle := ⟨"org.mpris.MediaPlayer2.E", .error (.zbus "gone")⟩

/-- C1 (counterexample): on the backend list `[A(canplay=false),
B(canplay=true), C(canplay=true)]` with no selection criterion, the selection
in `run` returns A — whose `can_play_now()` is false — rather than B, because
the code gates on `info()` yielding a track, never on `can_play_now()`. -/
theorem selector_canplay_policy_cex :
    mc_canplay hA = .ok false ∧ mc_canplay hB = .ok true ∧ mc_canplay hC = .ok true ∧
    runSelect none [hA, hB, hC] = .ok (hA, ⟨"", "Track", "", ""⟩) ∧ hA ≠ hB := by
  refine ⟨rfl, rfl, rfl, rfl, fun hcontr => ?_⟩
  exact absurd (congrArg MprisHandle.destination hcontr) (by decide)

theorem selector_first_with_info_witness :
    runSelect none [hA0, hB, hC] = .ok (hB, ⟨"BB", "", "", ""⟩) := by
  have h := selector_first_with_info none [hA0, hB, hC] (by decide)
  rw [h]
  rfl

/-- Replacement of a handle whose metadata fetch fails by one that succeeds
with an empty dictionary — i.e. by a handle that reports "no track". -/
def patchErr (h : MprisHandle) : MprisHandle :=
  match h.metadataRes with
  | .error _ => ⟨h.destination, .ok []⟩
  | .ok _ => h

theorem infoDefault_patchErr (h : MprisHandle) :
    infoDefault (patchErr h) = infoDefault h ∧ mc_name (patchErr h) = mc_name h := by
  cases hm : h.metadataRes with
  | ok xs =>
      have hp : patchErr h = h := by simp [patchErr, hm]
      rw [hp]
      exact ⟨rfl, rfl⟩
  | error e =>
      have hp : patchErr h = ⟨h.destination, .ok []⟩ := by simp [patchErr, hm]
      rw [hp]
      refine ⟨?_, rfl⟩
      simp [infoDefault, main_mc_info, hm]

theorem entryInfo_patchErr (instOpt : Option String) (h : MprisHandle) :
    entryInfo instOpt (patchErr h) = entryInfo instOpt h := by
  obtain ⟨h1, h2⟩ := infoDefault_patchErr h
  cases instOpt with
  | none => simpa [entryInfo] using h1
  | some name => simp [entryInfo, h1, h2]

theorem entryInfo_of_err (instOpt : Option String) (h : MprisHandle) (e : McError)
    (hm : h.metadataRes = .error e) : entryInfo instOpt h = .ok none := by
  have hi : infoDefault h = .ok none := by simp [infoDefault, main_mc_info, hm]
  cases instOpt with
  | none => simpa [entryInfo] using hi
  | some name => by_cases hc : mc_name h = name <;> simp [entryInfo, hc, hi]

theorem selectList_cons (instOpt : Option String) (h : MprisHandle) (t : List MprisHandle) :
    selectList instOpt (h :: t) =
      (entryInfo instOpt h).bind fun i =>
      (selectList instOpt t).bind fun l =>
      .ok (match i with | some v => (h, v) :: l | none => l) := by
  have hg1 : gather instOpt (h :: t) =
      (entryInfo instOpt h).bind fun i =>
      (gather instOpt t).bind fun l => .ok ((h, i) :: l) := rfl
  unfold selectList
  rw [hg1]
  cases he : entryInfo instOpt h with
  | crash m => simp [COut.bind]
  | err e => simp [COut.bind]
  | ok i =>
      cases hg : gather instOpt t with
      | crash m => simp [COut.bind, hg]
      | err e => simp [COut.bind, hg]
      | ok l => cases i <;> simp [COut.bind, hg, List.filterMap_cons]

/-- C4: during the selection/listing fan-out of `run`, every per-handle
transport or decode failure of the `info()` query is swallowed and treated
exactly as "no track": the batch result is unchanged when each failing handle
is replaced by one that succeeds with no track, and (absent panics, which are
not failure results) the fan-out always returns a list rather than
propagating any failure. -/
theorem listing_swallow_failures (instOpt : Option String) (hs : List MprisHandle) :
    selectList instOpt hs = selectList instOpt (hs.map patchErr) ∧
    ((∀ h ∈ hs, (main_mc_info h).isCrash = false) →
      ∃ l, selectList instOpt hs = .ok l) := by
  constructor
  · induction hs with
    | nil => rfl
    | cons h t ih =>
        rw [List.map_cons, selectList_cons instOpt h t,
          selectList_cons instOpt (patchErr h) (t.map patchErr),
          entryInfo_patchErr, ← ih]
        cases he : entryInfo instOpt h with
        | crash m => rfl
        | err e => rfl
        | ok i =>
            cases i with
            | none => rfl
            | some v =>
                have hok : patchErr h = h := by
                  cases hm : h.metadataRes with
                  | ok xs => simp [patchErr, hm]
                  | error e2 =>
                      rw [entryInfo_of_err instOpt h e2 hm] at he
                      exact absurd (COut.ok.inj he) (by simp)
                rw [hok]
  · intro hnc
    exact ⟨_, selectList_ok instOpt hs hnc⟩

theorem listing_swallow_failures_witness :
    selectList none [hE, hB] = selectList none ([hE, hB].map patchErr) ∧
    (∃ l, selectList none [hE, hB] = .ok l) :=
  ⟨(listing_swallow_failures none [hE, hB]).1,
    (listing_swallow_failures none [hE, hB]).2 (by decide)⟩

/-- C9: for a radio-stream handle whose state blob was fetched and parsed
successfully, `can_play_now()` returns true exactly when the blob's `url`
field is present, is a string, and that string is non-empty. -/
theorem radiotray_canplay_iff_url (h : RTHandle) (xs : JValue)
    (hp : h.playerStateParse = .ok xs) :
    (rt_mc_canplay h = .ok true ↔ ∃ s, xs.jget "url" = some (.jstr s) ∧ s ≠ "") := by
  have hr : rt_mc_canplay h = .ok (rt_canplay_blob xs) := by
    simp [rt_mc_canplay, hp]
  rw [hr]
  constructor
  · intro hb
    have hb2 : rt_canplay_blob xs = true := COut.ok.inj hb
    cases hg : xs.jget "url" with
    | none => rw [rt_canplay_blob, hg] at hb2; simp at hb2
    | some v =>
        cases v <;> rw [rt_canplay_blob, hg] at hb2 <;>
          simp [JValue.asStr] at hb2
        case jstr s => exact ⟨s, rfl, fun heq => absurd (heq ▸ hb2) (by decide)⟩
  · rintro ⟨s, hg, hs⟩
    have hbool : s.isEmpty = false := by
      cases hemp : s.isEmpty
      · rfl
      · exact absurd ((String.isEmpty_iff s).mp hemp) hs
    have hcan : rt_canplay_blob xs = true := by
      rw [rt_canplay_blob, hg]
      simp [JValue.asStr, hbool]
    rw [hcan]

/-- Parsed radio-stream state blob with a non-empty stream address. -/
def rtBlobOK : JValue := .jobj [("artist", .jstr "A"), ("url", .jstr "http://stream")]

theorem radiotray_canplay_iff_url_witness :
    rt_mc_canplay ⟨.ok rtBlobOK⟩ = .ok true :=
  (radiotray_canplay_iff_url ⟨.ok rtBlobOK⟩ rtBlobOK rfl).mpr
    ⟨"http://stream", rfl, by decide⟩
